import Mathlib

set_option maxRecDepth 100000

/-!
Verification of the slackbot webhook receiver.

This file gives a shallow embedding of the dedup/routing core of the
repository and proves (or refutes) the specified properties about it.

Embedded source functions:
- `isEventProcessed` (src/lambda.ts, src/api/events.ts): the bounded FIFO
  dedup cache over delivery identifiers.
- `checkIfAlreadyResponded` (lib/slack-utils): the thread-history dedup check.
- `isValidSlackRequest` (lib/slack-utils): the request signature verifier.
- `handler` (src/lambda.ts): the webhook entry point, embedded as
  `lambdaHandler`, producing the HTTP result together with an ordered trace
  of the pipeline stages it executed.
- `handleNewAssistantMessage` (lib/handle-messages): the direct-message
  handler, embedded as the list of messaging actions it performs.

External collaborators (Slack Web API calls, HMAC, the language model) are
modelled as explicit inputs: their results are parameters of the embedded
functions, so every theorem quantifies over all collaborator behaviours.
-/

/-! ## Dedup cache (src/lambda.ts lines 39-62, src/api/events.ts lines 10-32)

The TS code keeps a `Set` of seen identifiers plus an insertion-order queue.
The `Set` is modelled as a duplicate-free `List` in insertion order; `Set.has`
is `List.contains`, `Set.add` appends when absent, `Set.delete` filters.
The cache is generic in the identifier type (the TS `Set` is untyped at
runtime); the JS truthiness test `if (oldestEventId)` guarding the delete is
passed in as `isFalsyId` (for JS strings, exactly the empty string is falsy).
-/

def MAX_CACHE_SIZE : Nat := 100

structure DedupState (α : Type) where
  processedEvents : List α
  processedEventsQueue : List α
deriving Repr

def setAdd {α : Type} [BEq α] (s : List α) (x : α) : List α :=
  if s.contains x then s else s ++ [x]

def setDelete {α : Type} [BEq α] (s : List α) (x : α) : List α :=
  s.filter (fun y => !(y == x))

def isEventProcessed {α : Type} [BEq α] (isFalsyId : α → Bool)
    (eventId : α) (st : DedupState α) : Bool × DedupState α :=
  if st.processedEvents.contains eventId then
    (true, st)
  else
    let processed := setAdd st.processedEvents eventId
    let queue := st.processedEventsQueue ++ [eventId]
    if MAX_CACHE_SIZE < queue.length then
      match queue with
      | [] => (false, ⟨processed, queue⟩)
      | oldest :: rest =>
        (false, ⟨if isFalsyId oldest then processed else setDelete processed oldest, rest⟩)
    else
      (false, ⟨processed, queue⟩)

/-- JS string falsiness: only the empty string is falsy. -/
def strFalsy (s : String) : Bool := s == ""

/-- Feeding a list of identifiers through the cache, left to right. -/
def insertAll {α : Type} [BEq α] (isFalsyId : α → Bool)
    (l : List α) (st : DedupState α) : DedupState α :=
  l.foldl (fun s i => (isEventProcessed isFalsyId i s).2) st

/-- The boolean returned by the cache is exactly the membership test on the
set component of the state. -/
theorem isEventProcessed_fst {α : Type} [BEq α] (isFalsyId : α → Bool)
    (eventId : α) (st : DedupState α) :
    (isEventProcessed isFalsyId eventId st).1 = st.processedEvents.contains eventId := by
  unfold isEventProcessed
  split
  · simp_all
  · dsimp only
    split
    · split <;> simp_all
    · simp_all

/-- While at most `MAX_CACHE_SIZE` distinct identifiers have been inserted,
no eviction happens: both components equal the insertion sequence. -/
theorem insertAll_le_capacity (l : List String) (hnd : l.Nodup)
    (hlen : l.length ≤ MAX_CACHE_SIZE) :
    insertAll strFalsy l ⟨[], []⟩ = ⟨l, l⟩ := by
  induction l using List.reverseRecOn with
  | nil => rfl
  | append_singleton l' x ih =>
    have hnd' : l'.Nodup := hnd.of_append_left
    have hx : x ∉ l' := by
      have := List.disjoint_of_nodup_append hnd
      intro hmem
      exact this hmem (by simp)
    have hlen' : l'.length ≤ MAX_CACHE_SIZE := by
      simp [MAX_CACHE_SIZE] at hlen ⊢
      omega
    have hstep := ih hnd' hlen'
    unfold insertAll at hstep ⊢
    rw [List.foldl_append, hstep]
    simp only [List.foldl_cons, List.foldl_nil]
    unfold isEventProcessed
    have hcont : l'.contains x = false := by
      simpa using hx
    simp only [hcont, Bool.false_eq_true, if_false, setAdd]
    have hq : ¬ (MAX_CACHE_SIZE < (l' ++ [x]).length) := by
      simp [MAX_CACHE_SIZE] at hlen ⊢
      omega
    rw [if_neg hq]

/-- The 101st distinct insertion evicts the head of the queue. The evicted
identifier is removed from the membership set only when it is truthy: the
source guard `if (oldestEventId)` skips the `Set.delete` when the shifted
identifier is the empty string. -/
theorem insertAll_overflow (a x : String) (t' : List String)
    (hnd : ((a :: t') ++ [x]).Nodup) (hlen : t'.length = 99) :
    insertAll strFalsy ((a :: t') ++ [x]) ⟨[], []⟩ =
      if a = "" then ⟨(a :: t') ++ [x], t' ++ [x]⟩ else ⟨t' ++ [x], t' ++ [x]⟩ := by
  have hnd' : (a :: t').Nodup := hnd.of_append_left
  have hx : x ∉ a :: t' := by
    have := List.disjoint_of_nodup_append hnd
    intro hmem
    exact this hmem (by simp)
  have hanotin : a ∉ t' ++ [x] := by
    have hnd2 : (a :: (t' ++ [x])).Nodup := by simpa using hnd
    exact (List.nodup_cons.mp hnd2).1
  have hbase := insertAll_le_capacity (a :: t') hnd' (by simp [MAX_CACHE_SIZE]; omega)
  unfold insertAll at hbase ⊢
  rw [List.foldl_append, hbase]
  simp only [List.foldl_cons, List.foldl_nil]
  unfold isEventProcessed
  have hcont : (a :: t').contains x = false := by simpa using hx
  simp only [hcont, Bool.false_eq_true, if_false, setAdd]
  have hq : MAX_CACHE_SIZE < ((a :: t') ++ [x]).length := by
    simp [MAX_CACHE_SIZE]
    omega
  rw [if_pos hq]
  simp only [List.cons_append]
  by_cases ha : a = ""
  · simp [strFalsy, ha]
  · have hdel : setDelete (a :: (t' ++ [x])) a = t' ++ [x] := by
      unfold setDelete
      rw [List.filter_cons]
      simp only [beq_self_eq_true, Bool.not_true, Bool.false_eq_true, if_false]
      apply List.filter_eq_self.mpr
      intro y hy
      have hya : y ≠ a := fun hya => hanotin (hya ▸ hy)
      simp [hya]
    simp [strFalsy, ha, hdel]

/-- Claim C1 (amended): for any 101 distinct identifiers whose earliest
element is not the empty string, after all 101 insertions a query on the
earliest identifier returns false (it was evicted, oldest-first, with
exactly one eviction: the surviving queue is exactly the 100 most recent
identifiers), while a query on each of the 100 most recent identifiers
returns true. -/
theorem dedupCache_fifo_eviction (a : String) (t : List String)
    (hnd : (a :: t).Nodup) (hlen : t.length = 100) (ha : a ≠ "") :
    (isEventProcessed strFalsy a (insertAll strFalsy (a :: t) ⟨[], []⟩)).1 = false ∧
    (∀ y ∈ t, (isEventProcessed strFalsy y (insertAll strFalsy (a :: t) ⟨[], []⟩)).1 = true) ∧
    (insertAll strFalsy (a :: t) ⟨[], []⟩).processedEventsQueue = t := by
  obtain rfl | ⟨t', x, rfl⟩ := t.eq_nil_or_concat
  · simp at hlen
  · simp only [List.concat_eq_append] at hnd hlen ⊢
    have hlen' : t'.length = 99 := by
      simp at hlen
      omega
    have hform : (a :: (t' ++ [x])) = (a :: t') ++ [x] := by simp
    have hov := insertAll_overflow a x t' (by simpa using hnd) hlen'
    rw [if_neg ha] at hov
    rw [hform, hov]
    have hanotin : a ∉ t' ++ [x] := (List.nodup_cons.mp (by simpa using hnd)).1
    refine ⟨?_, ?_, rfl⟩
    · rw [isEventProcessed_fst]
      simpa using hanotin
    · intro y hy
      rw [isEventProcessed_fst]
      simpa using hy

/-- Concrete pool of 100 pairwise distinct identifiers. -/
def cexIds : List String := (List.range 100).map (fun n => toString n)

/-- Witness for C1: a concrete run on the 101 distinct identifiers
"w", "0", ..., "99". -/
theorem dedupCache_fifo_eviction_witness :
    (("w" :: cexIds).Nodup ∧ cexIds.length = 100 ∧ "w" ≠ "") ∧
    (isEventProcessed strFalsy "w" (insertAll strFalsy ("w" :: cexIds) ⟨[], []⟩)).1 = false :=
  ⟨⟨by decide, by decide, by decide⟩,
   (dedupCache_fifo_eviction "w" cexIds (by decide) (by decide) (by decide)).1⟩

/-- Counterexample to C1 as frozen: when the earliest of the 101 distinct
identifiers is the empty string, the source guard `if (oldestEventId)`
skips the `Set.delete`, so the query on the earliest identifier returns
true, not false. -/
theorem dedupCache_fifo_eviction_cex :
    (isEventProcessed strFalsy "" (insertAll strFalsy ("" :: cexIds) ⟨[], []⟩)).1 = true := by
  decide


/-- Claim C2 (amended): when an identifier is unseen by the cache (in
neither the set nor the queue), the first call returns false and records
it, and an immediately subsequent call with the same identifier returns
true; a later call can return false again once 100 further distinct
identifiers have evicted it (see the C2 counterexample). -/
theorem dedupCache_first_seen (x : String) (st : DedupState String)
    (hx : st.processedEvents.contains x = false)
    (hq : st.processedEventsQueue.contains x = false) :
    (isEventProcessed strFalsy x st).1 = false ∧
    (isEventProcessed strFalsy x st).2.processedEvents.contains x = true ∧
    (isEventProcessed strFalsy x (isEventProcessed strFalsy x st).2).1 = true := by
  obtain ⟨pe, pq⟩ := st
  simp only at hx hq
  have hmem : (setAdd pe x).contains x = true := by
    unfold setAdd
    rw [hx]
    simp
  have hrec : (isEventProcessed strFalsy x ⟨pe, pq⟩).2.processedEvents.contains x = true := by
    unfold isEventProcessed
    simp only [hx, Bool.false_eq_true, if_false]
    split
    · rename_i hcap
      rcases pq with _ | ⟨o, rest⟩
      · simp [MAX_CACHE_SIZE] at hcap
      · simp only [List.cons_append]
        have hxo : x ≠ o := by
          intro h
          rw [h] at hq
          simp at hq
        split
        · exact hmem
        · unfold setDelete
          have hmem' : x ∈ setAdd pe x := List.elem_iff.mp hmem
          apply List.elem_iff.mpr
          apply List.mem_filter.mpr
          refine ⟨hmem', ?_⟩
          simp [hxo]
    · exact hmem
  refine ⟨?_, hrec, ?_⟩
  · rw [isEventProcessed_fst]
    exact hx
  · rw [isEventProcessed_fst]
    exact hrec

/-- Witness for C2: the very first insertion into an empty cache, queried
again immediately. -/
theorem dedupCache_first_seen_witness :
    ((List.contains [] "w2" = false) ∧ (List.contains [] "w2" = false)) ∧
    (isEventProcessed strFalsy "w2" ⟨[], []⟩).1 = false ∧
    (isEventProcessed strFalsy "w2" (isEventProcessed strFalsy "w2" ⟨[], []⟩).2).1 = true :=
  ⟨⟨by decide, by decide⟩,
   (dedupCache_first_seen "w2" ⟨[], []⟩ (by decide) (by decide)).1,
   (dedupCache_first_seen "w2" ⟨[], []⟩ (by decide) (by decide)).2.2⟩

/-- Counterexample to C2 as frozen: after the first call with "x" (which
returns false), inserting 100 further distinct identifiers evicts "x", and
the next call with "x" returns false again — not true, as the claim
requires of every subsequent call. -/
theorem dedupCache_first_seen_cex :
    (isEventProcessed strFalsy "x" ⟨[], []⟩).1 = false ∧
    (isEventProcessed strFalsy "x"
      (insertAll strFalsy cexIds (isEventProcessed strFalsy "x" ⟨[], []⟩).2)).1 = false := by
  constructor
  · decide
  · decide

/-! ## History-based dedup check (lib/slack-utils, `checkIfAlreadyResponded`)

The Slack API collaborators are inputs: `repliesResult` is the outcome of
`client.conversations.replies` (`Except.error` = the call threw; `Option`
models a possibly absent `messages` field), `authResult` the outcome of
`client.auth.test` (its `bot_id` field may be absent). Message timestamps
are Slack timestamp strings; `parseFloat` on the canonical `"sec.micros"`
form is embedded as an exact count of microseconds, with `none` standing
for NaN (and JS comparisons with NaN being false). -/

structure ThreadMessage where
  bot_id : Option String
  thread_ts : Option String
  ts : Option String
deriving Repr, DecidableEq

structure MsgEvent where
  channel : Option String
  ts : Option String
  thread_ts : Option String
deriving Repr, DecidableEq

def digitVal (c : Char) : Option Nat :=
  if 48 ≤ c.toNat ∧ c.toNat ≤ 57 then some (c.toNat - 48) else none

def digitsVal (acc : Nat) : List Char → Option Nat
  | [] => some acc
  | c :: rest =>
    match digitVal c with
    | some d => digitsVal (acc * 10 + d) rest
    | none => none

/-- Split a character list at the first dot. -/
def spanNotDot : List Char → List Char × List Char
  | [] => ([], [])
  | c :: rest =>
    if c = '.' then ([], rest)
    else
      let p := spanNotDot rest
      (c :: p.1, p.2)

def padSix (cs : List Char) : List Char :=
  (cs ++ ['0', '0', '0', '0', '0', '0']).take 6

/-- `parseFloat` on a canonical Slack timestamp, as integer microseconds;
`none` models NaN. -/
def parseTsMicros (s : String) : Option Int :=
  let p := spanNotDot s.data
  match digitsVal 0 p.1, digitsVal 0 (padSix p.2) with
  | some ip, some fp => some ((ip : Int) * 1000000 + fp)
  | _, _ => none

/-- JS `>` on two parsed numbers; any comparison involving NaN is false. -/
def tsGt (a b : Option Int) : Bool :=
  match a, b with
  | some av, some bv => decide (bv < av)
  | _, _ => false

/-- Thread anchor: `event.thread_ts` when present and truthy, else `event.ts`. -/
def anchorTs (eventThreadTs : Option String) (evTs : String) : String :=
  match eventThreadTs with
  | some t => if t == "" then evTs else t
  | none => evTs

/-- The filter predicate of `checkIfAlreadyResponded`:
`m.bot_id === botId && m.thread_ts === threadTs && parseFloat(m.ts) > parseFloat(event.ts)`. -/
def repliedByBot (botId : Option String) (threadTs : String) (evTs : String)
    (m : ThreadMessage) : Bool :=
  m.bot_id == botId && m.thread_ts == some threadTs &&
    tsGt (match m.ts with | some s => parseTsMicros s | none => none) (parseTsMicros evTs)

def checkIfAlreadyResponded (ev : MsgEvent)
    (repliesResult : Except Unit (Option (List ThreadMessage)))
    (authResult : Except Unit (Option String)) : Bool :=
  match ev.channel, ev.ts with
  | some _, some evTs =>
    match repliesResult with
    | Except.error _ => false
    | Except.ok none => false
    | Except.ok (some messages) =>
      if messages.length ≤ 1 then false
      else
        match authResult with
        | Except.error _ => false
        | Except.ok botId =>
          decide (0 < (messages.filter (repliedByBot botId (anchorTs ev.thread_ts evTs) evTs)).length)
  | _, _ => false

theorem filter_pos_eq_any {α : Type} (p : α → Bool) (l : List α) :
    decide (0 < (l.filter p).length) = l.any p := by
  induction l with
  | nil => rfl
  | cons a t ih =>
    rw [List.filter_cons, List.any_cons]
    by_cases hp : p a
    · simp [hp]
    · simp only [Bool.not_eq_true] at hp
      simp [hp, ih]

/-- Claim C5 (amended): with a successful fetch and identity lookup, the
history check returns true exactly when the fetched message list has more
than one message AND contains a message passing the bot-reply filter
(bot-authored, same thread anchor, timestamp strictly greater than the
event's). In particular a list with at most one message yields false even
when that single message qualifies (see the C5 counterexample), and a list
whose only bot message has a smaller or equal timestamp yields false. -/
theorem checkIfAlreadyResponded_spec (ch evTs : String) (tts : Option String)
    (messages : List ThreadMessage) (botId : Option String) :
    checkIfAlreadyResponded ⟨some ch, some evTs, tts⟩
        (Except.ok (some messages)) (Except.ok botId) =
      (decide (1 < messages.length) &&
        messages.any (repliedByBot botId (anchorTs tts evTs) evTs)) := by
  unfold checkIfAlreadyResponded
  by_cases h : messages.length ≤ 1
  · have h1 : ¬ (1 < messages.length) := by omega
    simp [h, h1]
  · have h1 : 1 < messages.length := by omega
    have h2 : decide (1 < messages.length) = true := by simpa using h1
    simp only [h, if_false, h2, Bool.true_and]
    exact filter_pos_eq_any _ _

/-- Counterexample to C5 as frozen: a fetched list consisting of exactly one
message that is bot-authored, in the same thread, and strictly later than
the event still makes the check return false, because the source
short-circuits on `messages.length <= 1`. -/
theorem checkIfAlreadyResponded_cex :
    checkIfAlreadyResponded ⟨some "C", some "10.000000", none⟩
      (Except.ok (some [⟨some "B", some "10.000000", some "11.000000"⟩]))
      (Except.ok (some "B")) = false ∧
    repliedByBot (some "B") (anchorTs none "10.000000") "10.000000"
      ⟨some "B", some "10.000000", some "11.000000"⟩ = true := by
  constructor
  · decide
  · decide

/-- Claim C6: the history check never propagates an error: a throwing
`conversations.replies` call or a throwing `auth.test` call yields false
("not yet answered", fail-open), for every event and every outcome of the
other collaborator. -/
theorem checkIfAlreadyResponded_failOpen :
    (∀ (ev : MsgEvent) (auth : Except Unit (Option String)),
      checkIfAlreadyResponded ev (Except.error ()) auth = false) ∧
    (∀ (ev : MsgEvent) (replies : Except Unit (Option (List ThreadMessage))),
      checkIfAlreadyResponded ev replies (Except.error ()) = false) := by
  constructor
  · intro ev auth
    unfold checkIfAlreadyResponded
    rcases ev with ⟨ch, ts, tts⟩
    rcases ch <;> rcases ts <;> simp
  · intro ev replies
    unfold checkIfAlreadyResponded
    rcases ev with ⟨ch, ts, tts⟩
    rcases ch <;> rcases ts <;> try simp
    rcases replies with e | mo
    · simp
    · rcases mo with _ | messages
      · simp
      · by_cases h : messages.length ≤ 1 <;> simp [h]

/-! ## Signature verifier (lib/slack-utils, `isValidSlackRequest`)

The HMAC is an input `hmacHex : String → String` standing for
`createHmac('sha256', signingSecret).update(base).digest('hex')`; every
theorem below holds for an arbitrary keyed hash. The current time
`Date.now() / 1000` is modelled in whole seconds as `nowSec` (the claims
concern integral ages of 300 and 301 seconds). `timingSafeEqual` throws on
length mismatch, which the source catches and converts to false; it is
embedded as the explicit length check followed by equality. Header lookup
is case-insensitive, as in the source. -/

def lowerChar (c : Char) : Char :=
  if 65 ≤ c.toNat ∧ c.toNat ≤ 90 then Char.ofNat (c.toNat + 32) else c

/-- Case-insensitive ASCII comparison, used for header lookup. -/
def lowerEq (a b : String) : Bool := a.data.map lowerChar == b.data.map lowerChar

def getHeader (headers : List (String × String)) (name : String) : Option String :=
  (headers.find? (fun kv => lowerEq kv.1 name)).map (fun kv => kv.2)

/-- `parseInt` on a canonical decimal integer string; `none` models NaN. -/
def parseIntJS (s : String) : Option Int :=
  match s.data with
  | [] => none
  | '-' :: rest => if rest.isEmpty then none else (digitsVal 0 rest).map (fun n => -(n : Int))
  | ds => (digitsVal 0 ds).map (fun n => (n : Int))

def isValidSlackRequest (hmacHex : String → String) (nowSec : Int)
    (headers : List (String × String)) (rawBody : String) : Bool :=
  match getHeader headers "X-Slack-Request-Timestamp", getHeader headers "X-Slack-Signature" with
  | some timestamp, some slackSignature =>
    if timestamp == "" || slackSignature == "" then false
    else if (match parseIntJS timestamp with
             | some t => decide (300 < |nowSec - t|)
             | none => false) then false
    else
      let base := "v0:" ++ timestamp ++ ":" ++ rawBody
      let computedSignature := "v0=" ++ hmacHex base
      if computedSignature.length ≠ slackSignature.length then false
      else computedSignature == slackSignature
  | _, _ => false

/-- Claim C7: the signature verifier fails closed: it returns false when
the timestamp header is absent, when the signature header is absent, when
the timestamp deviates from the current time by more than 300 seconds
(in particular at exactly 301 seconds), or when the supplied signature
differs from the computed `v0=HMAC("v0:timestamp:body")`; and it returns
true for a correctly computed signature at an age of exactly 300 seconds. -/
theorem isValidSlackRequest_failsClosed (hmacHex : String → String) (nowSec : Int)
    (headers : List (String × String)) (rawBody : String) :
    (getHeader headers "X-Slack-Request-Timestamp" = none →
      isValidSlackRequest hmacHex nowSec headers rawBody = false) ∧
    (getHeader headers "X-Slack-Signature" = none →
      isValidSlackRequest hmacHex nowSec headers rawBody = false) ∧
    (∀ tsv t, getHeader headers "X-Slack-Request-Timestamp" = some tsv →
      parseIntJS tsv = some t → 300 < |nowSec - t| →
      isValidSlackRequest hmacHex nowSec headers rawBody = false) ∧
    (∀ tsv sg, getHeader headers "X-Slack-Request-Timestamp" = some tsv →
      getHeader headers "X-Slack-Signature" = some sg →
      sg ≠ "v0=" ++ hmacHex ("v0:" ++ tsv ++ ":" ++ rawBody) →
      isValidSlackRequest hmacHex nowSec headers rawBody = false) ∧
    (∀ tsv t, getHeader headers "X-Slack-Request-Timestamp" = some tsv →
      parseIntJS tsv = some t → nowSec - t = 301 →
      isValidSlackRequest hmacHex nowSec headers rawBody = false) ∧
    (∀ tsv t sg, getHeader headers "X-Slack-Request-Timestamp" = some tsv →
      getHeader headers "X-Slack-Signature" = some sg →
      tsv ≠ "" → parseIntJS tsv = some t → nowSec - t = 300 →
      sg = "v0=" ++ hmacHex ("v0:" ++ tsv ++ ":" ++ rawBody) →
      isValidSlackRequest hmacHex nowSec headers rawBody = true) := by
  have habsent1 : getHeader headers "X-Slack-Request-Timestamp" = none →
      isValidSlackRequest hmacHex nowSec headers rawBody = false := by
    intro h
    unfold isValidSlackRequest
    rcases getHeader headers "X-Slack-Signature" <;> simp [h]
  have habsent2 : getHeader headers "X-Slack-Signature" = none →
      isValidSlackRequest hmacHex nowSec headers rawBody = false := by
    intro h
    unfold isValidSlackRequest
    rcases getHeader headers "X-Slack-Request-Timestamp" <;> simp [h]
  have hwindow : ∀ tsv t, getHeader headers "X-Slack-Request-Timestamp" = some tsv →
      parseIntJS tsv = some t → 300 < |nowSec - t| →
      isValidSlackRequest hmacHex nowSec headers rawBody = false := by
    intro tsv t hts hp habs
    unfold isValidSlackRequest
    rw [hts]
    rcases hsg : getHeader headers "X-Slack-Signature" with _ | sg
    · rfl
    · by_cases he : (tsv == "" || sg == "") = true
      · simp [he]
      · simp only [he, Bool.false_eq_true, if_false]
        rw [hp]
        simp [habs]
  have hmismatch : ∀ tsv sg, getHeader headers "X-Slack-Request-Timestamp" = some tsv →
      getHeader headers "X-Slack-Signature" = some sg →
      sg ≠ "v0=" ++ hmacHex ("v0:" ++ tsv ++ ":" ++ rawBody) →
      isValidSlackRequest hmacHex nowSec headers rawBody = false := by
    intro tsv sg hts hsg hne
    unfold isValidSlackRequest
    rw [hts, hsg]
    by_cases he : (tsv == "" || sg == "") = true
    · simp [he]
    · simp only [he, Bool.false_eq_true, if_false]
      split
      · rfl
      · split
        · rfl
        · exact beq_eq_false_iff_ne.mpr fun h => hne h.symm
  refine ⟨habsent1, habsent2, hwindow, hmismatch, ?_, ?_⟩
  · intro tsv t hts hp hdiff
    exact hwindow tsv t hts hp (by rw [hdiff]; decide)
  · intro tsv t sg hts hsg htsne hp hdiff hsge
    unfold isValidSlackRequest
    rw [hts, hsg]
    have hsgne : sg ≠ "" := by
      rw [hsge]
      intro hcon
      have hlen := congrArg String.length hcon
      rw [String.length_append] at hlen
      have h3 : ("v0=" : String).length = 3 := rfl
      have h0 : ("" : String).length = 0 := rfl
      omega
    have he : (tsv == "" || sg == "") = false := by
      simp [htsne, hsgne]
    simp only [he, Bool.false_eq_true, if_false]
    rw [hp]
    have hwin : decide (300 < |nowSec - t|) = false := by
      rw [hdiff]
      decide
    simp only [hwin, Bool.false_eq_true, if_false]
    rw [← hsge]
    simp

/-- Concrete header list for the C7 witness; the signature header is stored
lowercase to exercise the case-insensitive lookup. -/
def hdrsW : List (String × String) :=
  [("X-Slack-Request-Timestamp", "400"), ("x-slack-signature", "v0=h")]

/-- Witness for C7: with the constant hash `fun _ => "h"`, the request is
accepted at an age of exactly 300 seconds and rejected at 301 seconds. -/
theorem isValidSlackRequest_witness :
    isValidSlackRequest (fun _ => "h") 700 hdrsW "b" = true ∧
    isValidSlackRequest (fun _ => "h") 701 hdrsW "b" = false :=
  ⟨(isValidSlackRequest_failsClosed (fun _ => "h") 700 hdrsW "b").2.2.2.2.2 "400" 400 "v0=h"
      (by decide) (by decide) (by decide) (by decide) (by decide) (by decide),
   (isValidSlackRequest_failsClosed (fun _ => "h") 701 hdrsW "b").2.2.2.2.1 "400" 400
      (by decide) (by decide) (by decide)⟩

/-! ## Webhook entry point (src/lambda.ts, `handler`)

JSON values are embedded by the inductive `Json` (arrays do not occur in
the payload shapes the handler inspects; for the accessed fields a JS
array behaves like the other non-object values here). `JSON.parse` of the
raw body is an input: `none` models a parse failure (the thrown
`SyntaxError` reaches the outer catch). JS property access `payload.k` on
a non-null value never throws and yields `undefined` (`Option.none`) when
the field is absent or the value is not an object; on `null` it throws,
which the embedding handles by the explicit `Json.null` branch reaching
the outer catch.

Within the `event_callback` block (the inner try of the source), the only
statement that can throw is `getBotId` (it rethrows); `verifyRequest`
returns a boolean and catches internally, `checkIfAlreadyResponded`
catches internally and is additionally wrapped in its own try/catch, the
dispatched handlers sit under `Promise.race(...).catch`, and the apology
post sits in its own try/catch. The collaborator outcomes are the
`RouterEnv` inputs. The result records the HTTP response, the ordered
trace of executed pipeline stages, and the final dedup-cache state. -/

inductive Json where
  | null : Json
  | boolean : Bool → Json
  | num : Int → Json
  | str : String → Json
  | obj : List (String × Json) → Json
deriving Repr

mutual
def Json.beq : Json → Json → Bool
  | Json.null, Json.null => true
  | Json.boolean a, Json.boolean b => a == b
  | Json.num a, Json.num b => a == b
  | Json.str a, Json.str b => a == b
  | Json.obj a, Json.obj b => beqFields a b
  | _, _ => false

def beqFields : List (String × Json) → List (String × Json) → Bool
  | [], [] => true
  | kv1 :: r1, kv2 :: r2 => kv1.1 == kv2.1 && Json.beq kv1.2 kv2.2 && beqFields r1 r2
  | _, _ => false
end

instance : BEq Json := ⟨Json.beq⟩

/-- JS truthiness of a value. -/
def jsTruthy : Json → Bool
  | Json.null => false
  | Json.boolean b => b
  | Json.num n => n != 0
  | Json.str s => s != ""
  | Json.obj _ => true

def jsFalsy (j : Json) : Bool := !(jsTruthy j)

/-- Truthiness of `payload.k`, where `undefined` is falsy. -/
def optTruthy : Option Json → Bool
  | none => false
  | some j => jsTruthy j

/-- Property read on a value already known not to be `null`. -/
def objField : Json → String → Option Json
  | Json.obj fs, k => (fs.find? (fun kv => kv.1 == k)).map (fun kv => kv.2)
  | _, _ => none

/-- JS strict equality of `payload.k` against a string literal. -/
def optIsStr (o : Option Json) (s : String) : Bool :=
  match o with
  | some (Json.str t) => t == s
  | _ => false

def jsIsStrField (j : Json) (k s : String) : Bool := optIsStr (objField j k) s

/-- Key presence, `k in e`; only consulted on values already known to be
objects (short-circuit after a successful string-typed field test). -/
def hasField : Json → String → Bool
  | Json.obj fs, k => fs.any (fun kv => kv.1 == k)
  | _, _ => false

def escapeJsonChar (c : Char) : String :=
  if c = '\\' then "\\\\" else if c = '\"' then "\\\"" else String.singleton c

/-- `JSON.stringify` escaping for the strings arising here (quote and
backslash; control characters do not occur in the modelled inputs). -/
def escapeJsonString (s : String) : String :=
  String.join (s.data.map escapeJsonChar)

mutual
def Json.stringify : Json → String
  | Json.null => "null"
  | Json.boolean b => cond b "true" "false"
  | Json.num n => toString n
  | Json.str s => "\"" ++ escapeJsonString s ++ "\""
  | Json.obj fs => "\x7b" ++ stringifyFields fs ++ "\x7d"

def stringifyFields : List (String × Json) → String
  | [] => ""
  | [kv] => "\"" ++ escapeJsonString kv.1 ++ "\":" ++ Json.stringify kv.2
  | kv :: rest =>
    "\"" ++ escapeJsonString kv.1 ++ "\":" ++ Json.stringify kv.2 ++ "," ++ stringifyFields rest
end

/-- Body of the url_verification reply:
`JSON.stringify(\x7b challenge: payload.challenge \x7d)`; an absent
(`undefined`) challenge field is omitted by `JSON.stringify`. -/
def challengeBody : Option Json → String
  | none => "\x7b\x7d"
  | some v => "\x7b\"challenge\":" ++ v.stringify ++ "\x7d"

/-- The pipeline stages whose execution the embedding records, in source
order. `postApology` is the `chat.postMessage` of the apology text inside
the app_mention catch block. -/
inductive Step where
  | urlVerificationReply
  | dedupCacheCheck
  | signatureVerify
  | historyCheck
  | dispatchMention
  | dispatchAssistantThread
  | dispatchDM
  | postApology
deriving Repr, DecidableEq

/-- Outcomes of the effectful collaborators during one invocation:
`verifyFails` is the boolean returned by `verifyRequest` (true = failure),
`botIdOk` is `some id` when `getBotId` returns and `none` when it throws,
`alreadyResponded` is the boolean returned by `checkIfAlreadyResponded`,
and `handlerFails` tells whether the raced dispatched handler rejected
(handler error or `createTimeout` elapsed). -/
structure RouterEnv where
  verifyFails : Bool
  botIdOk : Option String
  alreadyResponded : Bool
  handlerFails : Bool
deriving Repr, DecidableEq

structure LambdaResult where
  statusCode : Nat
  body : String
deriving Repr, DecidableEq

structure RouterOut where
  res : LambdaResult
  trace : List Step
  cache : DedupState Json

/-- `isMessageEvent` of src/lambda.ts. Total although `in` throws on
primitives: the type test short-circuits unless the value is an object
with a string `type` field. -/
def isMessageEvent (e : Json) : Bool :=
  (jsIsStrField e "type" "app_mention" || jsIsStrField e "type" "message")
    && hasField e "channel" && hasField e "ts"

/-- The direct-message guard of the dispatch chain (src/lambda.ts lines
207-214), evaluated only when `slackEvent.type` is not one of the earlier
branches; its first conjunct guarantees the value is an object before any
`in` test runs. -/
def dmGuard (e : Json) (botUserId : String) : Bool :=
  jsIsStrField e "type" "message"
    && !(hasField e "subtype" && optTruthy (objField e "subtype"))
    && (hasField e "channel_type" && jsIsStrField e "channel_type" "im")
    && !(hasField e "bot_id" && optTruthy (objField e "bot_id"))
    && !(hasField e "bot_profile" && optTruthy (objField e "bot_profile"))
    && !(hasField e "bot_id" && optIsStr (objField e "bot_id") botUserId)

/-- The `event_callback` processing block (the inner try of the source):
signature verification, bot identity, history-based dedup for message
events, then the dispatch chain. -/
def eventCallbackBlock (se : Json) (st : DedupState Json) (tr : List Step)
    (env : RouterEnv) : RouterOut :=
  let tr1 := tr ++ [Step.signatureVerify]
  if env.verifyFails then
    ⟨⟨200, "Verification failed, but returning 200 to avoid retries"⟩, tr1, st⟩
  else
    match env.botIdOk with
    | none => ⟨⟨200, "Error occurred, but returning 200 to avoid retries"⟩, tr1, st⟩
    | some botUserId =>
      let isMsg := isMessageEvent se
      let tr2 := if isMsg then tr1 ++ [Step.historyCheck] else tr1
      if isMsg && env.alreadyResponded then
        ⟨⟨200, "Event already processed (verified via thread history)"⟩, tr2, st⟩
      else
        if jsIsStrField se "type" "app_mention" then
          let tr3 := tr2 ++ [Step.dispatchMention]
          if env.handlerFails then
            ⟨⟨200, "done"⟩, if isMessageEvent se then tr3 ++ [Step.postApology] else tr3, st⟩
          else
            ⟨⟨200, "done"⟩, tr3, st⟩
        else if jsIsStrField se "type" "assistant_thread_started" then
          ⟨⟨200, "done"⟩, tr2 ++ [Step.dispatchAssistantThread], st⟩
        else if dmGuard se botUserId then
          ⟨⟨200, "done"⟩, tr2 ++ [Step.dispatchDM], st⟩
        else
          ⟨⟨200, "done"⟩, tr2, st⟩

/-- The `handler` of src/lambda.ts. `parsed` is the outcome of
`JSON.parse` on the (base64-decoded) raw body. -/
def Json.isNull : Json → Bool
  | Json.null => true
  | Json.boolean _ => false
  | Json.num _ => false
  | Json.str _ => false
  | Json.obj _ => false

def lambdaHandler (parsed : Option Json) (st : DedupState Json)
    (env : RouterEnv) : RouterOut :=
  match parsed with
  | none => ⟨⟨500, "Error processing request: unparseable body"⟩, [], st⟩
  | some payload =>
    if payload.isNull then
      ⟨⟨500, "Error processing request: cannot read properties of null"⟩, [], st⟩
    else if jsIsStrField payload "type" "url_verification" then
      ⟨⟨200, challengeBody (objField payload "challenge")⟩, [Step.urlVerificationReply], st⟩
    else
      let isEC := jsIsStrField payload "type" "event_callback"
      let evOpt := objField payload "event"
      if isEC && optTruthy evOpt && optTruthy (objField payload "event_id") then
        let r := isEventProcessed jsFalsy ((objField payload "event_id").getD Json.null) st
        if r.1 then
          ⟨⟨200, "Event already processed"⟩, [Step.dedupCacheCheck], r.2⟩
        else if isEC && optTruthy evOpt then
          eventCallbackBlock (evOpt.getD Json.null) r.2 [Step.dedupCacheCheck] env
        else
          ⟨⟨200, "Success!"⟩, [Step.dedupCacheCheck], r.2⟩
      else if isEC && optTruthy evOpt then
        eventCallbackBlock (evOpt.getD Json.null) st [] env
      else
        ⟨⟨200, "Success!"⟩, [], st⟩

/-- The source order of the pipeline stages. -/
def stagePipelineOrder : List Step :=
  [Step.urlVerificationReply, Step.dedupCacheCheck, Step.signatureVerify, Step.historyCheck,
   Step.dispatchMention, Step.dispatchAssistantThread, Step.dispatchDM, Step.postApology]

/-- The `event_callback` block appends to the incoming trace an ordered
subsequence of: signature verification, history check, one dispatch,
apology post; the apology appears only together with a mention dispatch
and only when the raced handler failed. -/
theorem eventCallbackBlock_trace (se : Json) (st : DedupState Json) (tr : List Step)
    (env : RouterEnv) :
    ∃ rest, (eventCallbackBlock se st tr env).trace = tr ++ rest ∧
      rest.Sublist [Step.signatureVerify, Step.historyCheck, Step.dispatchMention,
        Step.dispatchAssistantThread, Step.dispatchDM, Step.postApology] ∧
      (Step.postApology ∈ rest → Step.dispatchMention ∈ rest ∧ env.handlerFails = true) := by
  unfold eventCallbackBlock
  by_cases h1 : env.verifyFails = true
  · exact ⟨[Step.signatureVerify], by simp [h1], by decide, by simp⟩
  · rcases h2 : env.botIdOk with _ | b
    · exact ⟨[Step.signatureVerify], by simp [h1, h2], by decide, by simp⟩
    · by_cases h3 : isMessageEvent se = true
      · by_cases h4 : env.alreadyResponded = true
        · exact ⟨[Step.signatureVerify, Step.historyCheck],
            by simp [h1, h2, h3, h4], by decide, by simp⟩
        · by_cases h5 : jsIsStrField se "type" "app_mention" = true
          · by_cases h6 : env.handlerFails = true
            · exact ⟨[Step.signatureVerify, Step.historyCheck, Step.dispatchMention,
                Step.postApology], by simp [h1, h2, h3, h4, h5, h6], by decide,
                fun _ => ⟨by decide, h6⟩⟩
            · exact ⟨[Step.signatureVerify, Step.historyCheck, Step.dispatchMention],
                by simp [h1, h2, h3, h4, h5, h6], by decide, by simp⟩
          · by_cases h7 : jsIsStrField se "type" "assistant_thread_started" = true
            · exact ⟨[Step.signatureVerify, Step.historyCheck, Step.dispatchAssistantThread],
                by simp [h1, h2, h3, h4, h5, h7], by decide, by simp⟩
            · by_cases h8 : dmGuard se b = true
              · exact ⟨[Step.signatureVerify, Step.historyCheck, Step.dispatchDM],
                  by simp [h1, h2, h3, h4, h5, h7, h8], by decide, by simp⟩
              · exact ⟨[Step.signatureVerify, Step.historyCheck],
                  by simp [h1, h2, h3, h4, h5, h7, h8], by decide, by simp⟩
      · by_cases h5 : jsIsStrField se "type" "app_mention" = true
        · by_cases h6 : env.handlerFails = true
          · exact ⟨[Step.signatureVerify, Step.dispatchMention],
              by simp [h1, h2, h3, h5, h6], by decide, by simp⟩
          · exact ⟨[Step.signatureVerify, Step.dispatchMention],
              by simp [h1, h2, h3, h5, h6], by decide, by simp⟩
        · by_cases h7 : jsIsStrField se "type" "assistant_thread_started" = true
          · exact ⟨[Step.signatureVerify, Step.dispatchAssistantThread],
              by simp [h1, h2, h3, h5, h7], by decide, by simp⟩
          · by_cases h8 : dmGuard se b = true
            · exact ⟨[Step.signatureVerify, Step.dispatchDM],
                by simp [h1, h2, h3, h5, h7, h8], by decide, by simp⟩
            · exact ⟨[Step.signatureVerify],
                by simp [h1, h2, h3, h5, h7, h8], by decide, by simp⟩

/-- The trace of one invocation is nil, the url_verification reply alone,
the dedup-cache check alone, or an optional dedup-cache check followed by
the `event_callback` block stages. -/
theorem lambdaHandler_trace_cases (parsed : Option Json) (st : DedupState Json)
    (env : RouterEnv) :
    (lambdaHandler parsed st env).trace = [] ∨
    (lambdaHandler parsed st env).trace = [Step.urlVerificationReply] ∨
    (lambdaHandler parsed st env).trace = [Step.dedupCacheCheck] ∨
    ∃ tr0 rest, (tr0 = [] ∨ tr0 = [Step.dedupCacheCheck]) ∧
      (lambdaHandler parsed st env).trace = tr0 ++ rest ∧
      rest.Sublist [Step.signatureVerify, Step.historyCheck, Step.dispatchMention,
        Step.dispatchAssistantThread, Step.dispatchDM, Step.postApology] ∧
      (Step.postApology ∈ rest → Step.dispatchMention ∈ rest ∧ env.handlerFails = true) := by
  unfold lambdaHandler
  split
  · exact Or.inl rfl
  · split
    · exact Or.inl rfl
    · split
      · exact Or.inr (Or.inl rfl)
      · dsimp only
        split
        · split
          · exact Or.inr (Or.inr (Or.inl rfl))
          · split
            · refine Or.inr (Or.inr (Or.inr ?_))
              obtain ⟨rest, heq, hsub, hap⟩ := eventCallbackBlock_trace _ _ _ _
              exact ⟨[Step.dedupCacheCheck], rest, Or.inr rfl, heq, hsub, hap⟩
            · exact Or.inr (Or.inr (Or.inl rfl))
        · split
          · refine Or.inr (Or.inr (Or.inr ?_))
            obtain ⟨rest, heq, hsub, hap⟩ := eventCallbackBlock_trace _ _ _ _
            exact ⟨[], rest, Or.inl rfl, heq, hsub, hap⟩
          · exact Or.inl rfl

/-- Claim C3 (amended): on every request the executed stages appear as an
ordered subsequence of: url_verification reply, dedup-cache check,
signature verification, history-based dedup check, dispatch, apology post.
In particular the dedup-cache check always precedes signature
verification (not the other way round, as the frozen claim states: see the
C3 counterexample), verification precedes the history check, and the
history check precedes dispatch. -/
theorem router_stage_order (parsed : Option Json) (st : DedupState Json) (env : RouterEnv) :
    (lambdaHandler parsed st env).trace.Sublist stagePipelineOrder := by
  have hpre : ∀ (se : Json) (st2 : DedupState Json) (tr : List Step) (env2 : RouterEnv),
      tr.Sublist [Step.urlVerificationReply, Step.dedupCacheCheck] →
      (eventCallbackBlock se st2 tr env2).trace.Sublist stagePipelineOrder := by
    intro se st2 tr env2 htr
    obtain ⟨rest, heq, hsub, _⟩ := eventCallbackBlock_trace se st2 tr env2
    rw [heq]
    have hsplitp : stagePipelineOrder = [Step.urlVerificationReply, Step.dedupCacheCheck] ++
        [Step.signatureVerify, Step.historyCheck, Step.dispatchMention,
         Step.dispatchAssistantThread, Step.dispatchDM, Step.postApology] := rfl
    rw [hsplitp]
    exact htr.append hsub
  unfold lambdaHandler
  split
  · exact List.nil_sublist _
  · split
    · exact List.nil_sublist _
    · split
      · exact (by decide : List.Sublist [Step.urlVerificationReply] stagePipelineOrder)
      · dsimp only
        split
        · split
          · exact (by decide : List.Sublist [Step.dedupCacheCheck] stagePipelineOrder)
          · split
            · exact hpre _ _ _ _ (by decide)
            · exact (by decide : List.Sublist [Step.dedupCacheCheck] stagePipelineOrder)
        · split
          · exact hpre _ _ _ _ (by decide)
          · exact List.nil_sublist _

def emptyCache : DedupState Json := ⟨[], []⟩

/-- Collaborators all succeed, handler succeeds. -/
def envOk : RouterEnv := ⟨false, some "B", false, false⟩

/-- Collaborators all succeed, handler fails (error or timeout). -/
def envFail : RouterEnv := ⟨false, some "B", false, true⟩

/-- An `event_callback` payload carrying an app_mention event with channel
and timestamp. -/
def mkMentionPayload (eid ch ts : String) : Json :=
  Json.obj [("type", Json.str "event_callback"), ("event_id", Json.str eid),
    ("event", Json.obj [("type", Json.str "app_mention"), ("channel", Json.str ch),
      ("ts", Json.str ts)])]

/-- Counterexample to C3 as frozen: on a fully processed mention request
the dedup-cache check runs strictly before signature verification — the
source performs `isEventProcessed` before `verifyRequest`, not after. -/
theorem router_stage_order_cex :
    Step.dedupCacheCheck ∈
      (lambdaHandler (some (mkMentionPayload "E1" "C1" "1.0")) emptyCache envOk).trace ∧
    Step.signatureVerify ∈
      (lambdaHandler (some (mkMentionPayload "E1" "C1" "1.0")) emptyCache envOk).trace ∧
    (lambdaHandler (some (mkMentionPayload "E1" "C1" "1.0")) emptyCache
        envOk).trace.indexOf Step.dedupCacheCheck <
      (lambdaHandler (some (mkMentionPayload "E1" "C1" "1.0")) emptyCache
        envOk).trace.indexOf Step.signatureVerify := by
  decide

/-- Any outcome of the `event_callback` block carries status 200. -/
theorem eventCallbackBlock_status (se : Json) (st : DedupState Json) (tr : List Step)
    (env : RouterEnv) : (eventCallbackBlock se st tr env).res.statusCode = 200 := by
  unfold eventCallbackBlock
  dsimp only
  repeat' split
  all_goals rfl

/-- Claim C4 (amended): the handler returns 500 for an unparseable body
and for a body parsing to JSON null (where `payload.type` throws and the
outer catch answers 500); every other parsed body gets 200, whatever the
collaborator outcomes — verification failures, dedup hits, handler errors
and timeouts included. -/
theorem router_status_codes (st : DedupState Json) (env : RouterEnv) :
    ((lambdaHandler none st env).res.statusCode = 500) ∧
    ((lambdaHandler (some Json.null) st env).res.statusCode = 500) ∧
    (∀ p : Json, p ≠ Json.null → (lambdaHandler (some p) st env).res.statusCode = 200) := by
  refine ⟨rfl, rfl, ?_⟩
  intro p hp
  have hnn : p.isNull = false := by
    cases p
    case null => exact absurd rfl hp
    all_goals rfl
  simp only [lambdaHandler, hnn, Bool.false_eq_true, if_false]
  split
  · rfl
  · split
    · split
      · rfl
      · split
        · exact eventCallbackBlock_status _ _ _ _
        · rfl
    · split
      · exact eventCallbackBlock_status _ _ _ _
      · rfl

/-- Witness for C4: a parseable non-null body is answered with 200. -/
theorem router_status_codes_witness :
    (Json.str "ok" ≠ Json.null) ∧
    (lambdaHandler (some (Json.str "ok")) emptyCache envOk).res.statusCode = 200 :=
  ⟨fun h => Json.noConfusion h,
   (router_status_codes emptyCache envOk).2.2 (Json.str "ok") (fun h => Json.noConfusion h)⟩

/-- Counterexample to C4 as frozen: the body "null" parses as JSON, yet
the handler returns 500, not 200 — `payload.type` throws on null and the
outer catch replies 500. -/
theorem router_status_codes_cex :
    (lambdaHandler (some Json.null) emptyCache envOk).res.statusCode = 500 ∧
    (lambdaHandler (some Json.null) emptyCache envOk).res.statusCode ≠ 200 := by
  constructor
  · rfl
  · decide

/-- Claim C9: a payload whose `type` is "url_verification" is answered
with HTTP 200 and a body that echoes the challenge value (the source
replies `JSON.stringify(\x7b challenge: payload.challenge \x7d)`): for a
string challenge without escapes the body is exactly
`\x7b"challenge":"<challenge>"\x7d`, and no pipeline stage beyond the
echo runs. -/
theorem urlVerification_echo (p : Json) (st : DedupState Json) (env : RouterEnv)
    (hty : objField p "type" = some (Json.str "url_verification")) :
    (lambdaHandler (some p) st env).res.statusCode = 200 ∧
    (lambdaHandler (some p) st env).res.body = challengeBody (objField p "challenge") ∧
    (lambdaHandler (some p) st env).trace = [Step.urlVerificationReply] ∧
    (∀ c : String, objField p "challenge" = some (Json.str c) → escapeJsonString c = c →
      (lambdaHandler (some p) st env).res.body = "\x7b\"challenge\":\"" ++ c ++ "\"\x7d") := by
  have hobj : ∃ fs, p = Json.obj fs := by
    cases p
    case obj fs => exact ⟨fs, rfl⟩
    all_goals simp [objField] at hty
  obtain ⟨fs, rfl⟩ := hobj
  have hisnull : (Json.obj fs).isNull = false := rfl
  have hurl : jsIsStrField (Json.obj fs) "type" "url_verification" = true := by
    simp [jsIsStrField, hty, optIsStr]
  have hred : lambdaHandler (some (Json.obj fs)) st env =
      ⟨⟨200, challengeBody (objField (Json.obj fs) "challenge")⟩,
        [Step.urlVerificationReply], st⟩ := by
    simp only [lambdaHandler, hisnull, Bool.false_eq_true, if_false, hurl, if_true]
  rw [hred]
  refine ⟨rfl, rfl, rfl, ?_⟩
  intro c hc hesc
  rw [hc]
  show "\x7b\"challenge\":" ++ (Json.str c).stringify ++ "\x7d" = _
  rw [Json.stringify, hesc]
  have e1 : ("\x7b\"challenge\":\"" : String) = "\x7b\"challenge\":" ++ "\"" := rfl
  have e2 : ("\"\x7d" : String) = "\"" ++ "\x7d" := rfl
  rw [e1, e2]
  simp only [← String.append_assoc]

/-- Witness for C9: the end-to-end scenario with challenge "abc123". -/
theorem urlVerification_echo_witness :
    (lambdaHandler (some (Json.obj [("type", Json.str "url_verification"),
        ("challenge", Json.str "abc123")])) emptyCache envOk).res.statusCode = 200 ∧
    (lambdaHandler (some (Json.obj [("type", Json.str "url_verification"),
        ("challenge", Json.str "abc123")])) emptyCache envOk).res.body =
      "\x7b\"challenge\":\"abc123\"\x7d" :=
  ⟨(urlVerification_echo (Json.obj [("type", Json.str "url_verification"),
      ("challenge", Json.str "abc123")]) emptyCache envOk rfl).1,
   (urlVerification_echo (Json.obj [("type", Json.str "url_verification"),
      ("challenge", Json.str "abc123")]) emptyCache envOk rfl).2.2.2 "abc123" rfl rfl⟩

/-- A direct-message `event_callback` payload (top-level IM message). -/
def dmPayload : Json :=
  Json.obj [("type", Json.str "event_callback"), ("event_id", Json.str "E2"),
    ("event", Json.obj [("type", Json.str "message"), ("channel", Json.str "C"),
      ("ts", Json.str "1.0"), ("channel_type", Json.str "im")])]

/-- Claim C8 (amended): the apology message is posted exactly by the
app_mention error path: (a) whenever the apology post occurs, a mention
dispatch occurred and the raced handler had failed; (b) a mention event
with channel and timestamp whose handler fails does get the apology post
and the response is still 200. Failing handlers of direct-message and
assistant-thread events produce no apology (their rejections are only
logged): see the C8 counterexample. -/
theorem router_apology_policy :
    (∀ (parsed : Option Json) (st : DedupState Json) (env : RouterEnv),
      Step.postApology ∈ (lambdaHandler parsed st env).trace →
      Step.dispatchMention ∈ (lambdaHandler parsed st env).trace ∧ env.handlerFails = true) ∧
    (∀ (eid ch ts b : String) (st : DedupState Json) (env : RouterEnv),
      env = ⟨false, some b, false, true⟩ → eid ≠ "" →
      (isEventProcessed jsFalsy (Json.str eid) st).1 = false →
      Step.postApology ∈ (lambdaHandler (some (mkMentionPayload eid ch ts)) st env).trace ∧
      (lambdaHandler (some (mkMentionPayload eid ch ts)) st env).res.statusCode = 200) := by
  constructor
  · intro parsed st env h
    rcases lambdaHandler_trace_cases parsed st env with h0 | h0 | h0 | ⟨tr0, rest, htr0, h0, hsub, hap⟩
    · rw [h0] at h
      simp at h
    · rw [h0] at h
      simp at h
    · rw [h0] at h
      simp at h
    · rw [h0] at h ⊢
      have hrest : Step.postApology ∈ rest := by
        rcases htr0 with rfl | rfl
        · simpa using h
        · rcases List.mem_append.mp h with hl | hr
          · simp at hl
          · exact hr
      obtain ⟨hm, hf⟩ := hap hrest
      exact ⟨List.mem_append.mpr (Or.inr hm), hf⟩
  · intro eid ch ts b st env henv heid hdedup
    subst henv
    have hisnull : (mkMentionPayload eid ch ts).isNull = false := rfl
    have hurl : jsIsStrField (mkMentionPayload eid ch ts) "type" "url_verification" = false := rfl
    have hec : jsIsStrField (mkMentionPayload eid ch ts) "type" "event_callback" = true := rfl
    have hev : optTruthy (objField (mkMentionPayload eid ch ts) "event") = true := rfl
    have heidt : optTruthy (objField (mkMentionPayload eid ch ts) "event_id") = true := by
      show (eid != "") = true
      simpa using heid
    have hgetd : (objField (mkMentionPayload eid ch ts) "event_id").getD Json.null =
        Json.str eid := rfl
    have hevgetd : (objField (mkMentionPayload eid ch ts) "event").getD Json.null =
        Json.obj [("type", Json.str "app_mention"), ("channel", Json.str ch),
          ("ts", Json.str ts)] := rfl
    have hmsg : isMessageEvent (Json.obj [("type", Json.str "app_mention"),
        ("channel", Json.str ch), ("ts", Json.str ts)]) = true := rfl
    have hmen : jsIsStrField (Json.obj [("type", Json.str "app_mention"),
        ("channel", Json.str ch), ("ts", Json.str ts)]) "type" "app_mention" = true := rfl
    simp only [lambdaHandler, eventCallbackBlock, hisnull, hurl, hec, hev, heidt, hgetd,
      hevgetd, hmsg, hmen, hdedup, Bool.false_eq_true, if_false, Bool.true_and,
      Bool.and_true, Bool.and_self, if_true, Bool.and_false]
    simp

/-- Witness for C8: a concrete failing mention handler leads to the
apology post with response 200. -/
theorem router_apology_policy_witness :
    Step.postApology ∈
      (lambdaHandler (some (mkMentionPayload "E9" "C9" "9.0")) emptyCache envFail).trace ∧
    (lambdaHandler (some (mkMentionPayload "E9" "C9" "9.0")) emptyCache
      envFail).res.statusCode = 200 :=
  router_apology_policy.2 "E9" "C9" "9.0" "B" emptyCache envFail rfl (by decide) rfl

/-- Counterexample to C8 as frozen: a direct-message event whose handler
fails is dispatched, yet no apology post occurs (its rejection is only
logged by `.catch(console.error)`); the thread is left without a terminal
response while the outer response is still 200. -/
theorem router_apology_policy_cex :
    Step.dispatchDM ∈ (lambdaHandler (some dmPayload) emptyCache envFail).trace ∧
    Step.postApology ∉ (lambdaHandler (some dmPayload) emptyCache envFail).trace ∧
    (lambdaHandler (some dmPayload) emptyCache envFail).res.statusCode = 200 := by
  decide

/-! ## Direct-message handler (lib/handle-messages, `handleNewAssistantMessage`)

The handler is embedded as the list of messaging actions it performs:
the "is thinking..." status post (`updateStatusUtil`), the thread fetch
(`getThread`), the reply post (`chat.postMessage` with the generated
text), and the closing empty status post. The guard collapses the JS
presence-and-truthiness tests on `bot_id`, `bot_profile` and `thread_ts`;
`bot_profile` presence and truthiness are folded into one boolean. -/

structure DMEvent where
  bot_id : Option String
  bot_profile : Bool
  thread_ts : Option String
  channel : String
deriving Repr, DecidableEq

inductive BotAction where
  | postStatus (channel threadTs text : String)
  | fetchThread (channel threadTs : String)
  | postReply (channel threadTs : String)
deriving Repr, DecidableEq

def optStrTruthy : Option String → Bool
  | none => false
  | some s => s != ""

def handleNewAssistantMessage (ev : DMEvent) (botUserId : String) : List BotAction :=
  if optStrTruthy ev.bot_id || ev.bot_id == some botUserId || ev.bot_profile
      || !(optStrTruthy ev.thread_ts) then
    []
  else
    let thread_ts := ev.thread_ts.getD ""
    [BotAction.postStatus ev.channel thread_ts "is thinking...",
     BotAction.fetchThread ev.channel thread_ts,
     BotAction.postReply ev.channel thread_ts,
     BotAction.postStatus ev.channel thread_ts ""]

/-- Claim C10: a direct message that passes the router dispatch conditions
(not bot-authored) but carries no thread_ts makes
`handleNewAssistantMessage` return immediately: no status message, no
thread fetch, no reply, no error — the message is silently dropped. -/
theorem handleNewAssistantMessage_noThread (ev : DMEvent) (botUserId : String)
    (hb : ev.bot_id = none) (hp : ev.bot_profile = false) (ht : ev.thread_ts = none) :
    handleNewAssistantMessage ev botUserId = [] := by
  simp [handleNewAssistantMessage, hb, hp, ht, optStrTruthy]

/-- Witness for C10: a concrete top-level direct message produces no
actions. -/
theorem handleNewAssistantMessage_noThread_witness :
    handleNewAssistantMessage ⟨none, false, none, "C"⟩ "B" = [] :=
  handleNewAssistantMessage_noThread ⟨none, false, none, "C"⟩ "B" rfl rfl rfl
